import Mathlib

/-!
# Verification of the WireGuard peer-provisioning script

A shallow embedding of `main.py`, a script that provisions a new WireGuard
peer: it parses `wg show` output, reads the interface's `Address` directive
from its config file, allocates the smallest unused host address in the
subnet, and registers and persists the new peer.

Text is modelled as lists of characters (`Line := List Char`); IPv4
addresses as natural numbers below `2^32`; the relevant parts of Python's
`ipaddress` standard library (as of CPython 3.9) are embedded explicitly.
Fallible steps return `Except Err`.
-/

namespace WgAuto

/-- The error taxonomy: each variant corresponds to one `raise`/failed
`assert`/library exception reachable in the script. -/
inductive Err where
  /-- `wg show` errored or returned no output. -/
  | StatusUnavailable
  /-- no `interface: ` line in the status output. -/
  | InterfaceNotFound
  /-- no `public key: ` line in the status output. -/
  | PublicKeyNotFound
  /-- the interactive username prompt returned an empty string. -/
  | EmptyUsername
  /-- `/etc/wireguard/<name>.conf` does not exist. -/
  | ConfigFileMissing
  /-- no line of the config file starts with `Address`. -/
  | AddressDirectiveMissing
  /-- a malformed address string (Python `ValueError` from `ipaddress`). -/
  | ValueError
  /-- every candidate host address is already used. -/
  | PoolExhausted
  /-- `os.mkdir` failed when creating the client artifact directory. -/
  | MkdirFailed
  /-- `wg set ... peer ...` exited non-zero. -/
  | RegistrationFailed
  /-- `wg-quick save` exited non-zero. -/
  | PersistFailed
deriving DecidableEq

instance {ε α : Type _} [DecidableEq ε] [DecidableEq α] :
    DecidableEq (Except ε α) := fun x y =>
  match x, y with
  | .error a, .error b =>
    if h : a = b then .isTrue (h ▸ rfl)
    else .isFalse (fun hh => h (Except.error.inj hh))
  | .ok a, .ok b =>
    if h : a = b then .isTrue (h ▸ rfl)
    else .isFalse (fun hh => h (Except.ok.inj hh))
  | .error _, .ok _ => .isFalse Except.noConfusion
  | .ok _, .error _ => .isFalse Except.noConfusion

/-- A piece of text (a Python `str`), as its list of characters. -/
abbrev Line := List Char

/-! ## Python string primitives -/

/-- Prepend a character to the first part of a split result. -/
def consHead (x : Char) : List Line → List Line
  | [] => [[x]]
  | h :: t => (x :: h) :: t

/-- Python `s.split(c)` for a one-character separator: `n` separators yield
`n+1` (possibly empty) parts; `"".split(c) = [""]`. -/
def splitOnChar (c : Char) : Line → List Line
  | [] => [[]]
  | x :: xs =>
    if x = c then [] :: splitOnChar c xs
    else consHead x (splitOnChar c xs)

/-- Worker for `splitWs`: `acc` holds the current token, reversed. -/
def splitWsAux : Line → Line → List Line
  | [], acc => if acc = [] then [] else [acc.reverse]
  | c :: cs, acc =>
    if c.isWhitespace then
      if acc = [] then splitWsAux cs []
      else acc.reverse :: splitWsAux cs []
    else splitWsAux cs (c :: acc)

/-- Python `s.split()` with no argument: split on runs of whitespace,
discarding empty tokens. -/
def splitWs (s : Line) : List Line := splitWsAux s []

/-- Python's substring test `pat in s`: some suffix of `s` starts with
`pat`. -/
def containsSub (pat : Line) : Line → Bool
  | [] => decide (pat = [])
  | c :: rest => pat.isPrefixOf (c :: rest) || containsSub pat rest

/-- Python `s.strip()`: drop leading and trailing whitespace. -/
def pyStrip (s : Line) : Line :=
  ((s.dropWhile Char.isWhitespace).reverse.dropWhile Char.isWhitespace).reverse

/-- Python `line.split()[-1]`, as used throughout the script to take the
last whitespace-delimited token of a line. -/
def lastToken (s : Line) : Line := (splitWs s).getLastD []

/-! ## The `ipaddress` library (the fragment the script uses) -/

/-- Numeric value of a decimal digit character. -/
def charToDigit (c : Char) : Nat := c.toNat - 48

/-- Value of a string of decimal digits (Python `int(s)` on digit input). -/
def digitsVal (s : Line) : Nat := s.foldl (fun a c => a * 10 + charToDigit c) 0

/-- `ipaddress._parse_octet` (CPython 3.9): an octet must be non-empty,
all ASCII digits, at most 3 characters, with no leading zero, and at
most 255. -/
def parseOctet (s : Line) : Option Nat :=
  if s = [] then none
  else if ¬ s.all Char.isDigit then none
  else if s.length > 3 then none
  else if s.length > 1 ∧ s.headD ' ' = '0' then none
  else if digitsVal s ≤ 255 then some (digitsVal s) else none

/-- `ipaddress.IPv4Address(s)` parsing: exactly four `.`-separated octets,
combined big-endian into a number below `2^32`. -/
def parseIPv4 (s : Line) : Option Nat :=
  match (splitOnChar '.' s).map parseOctet with
  | [some a, some b, some c, some d] =>
      some (a * 16777216 + b * 65536 + c * 256 + d)
  | _ => none

/-- An `ipaddress.IPv4Network`: the (masked) network base address and the
prefix length. -/
structure IPv4Network where
  network : Nat
  prefixlen : Nat
deriving DecidableEq

/-- Number of addresses in a block of the given prefix length. -/
def blockSize (pl : Nat) : Nat := 2 ^ (32 - pl)

/-- Clear the host bits of `addr` for prefix length `pl` (what
`ip_network(_, strict=False)` does to derive the network address). -/
def maskNetwork (addr pl : Nat) : Nat := addr - addr % blockSize pl

/-- `ipaddress._prefix_from_prefix_string`: all-digit, value at most 32.
(The dotted-netmask alternative form is never produced by this script and
is not modelled.) -/
def parsePrefixLen (s : Line) : Option Nat :=
  if s ≠ [] ∧ s.all Char.isDigit then
    if digitsVal s ≤ 32 then some (digitsVal s) else none
  else none

/-- `ipaddress.ip_network(s, strict=False)`: at most one `/`; a missing
prefix means `/32`; host bits of the declared address are cleared. -/
def parseNetwork (s : Line) : Option IPv4Network :=
  match splitOnChar '/' s with
  | [a] => (parseIPv4 a).map (fun n => ⟨n, 32⟩)
  | [a, p] =>
    match parseIPv4 a, parsePrefixLen p with
    | some addr, some pl => some ⟨maskNetwork addr pl, pl⟩
    | _, _ => none
  | _ => none

/-- Python `ip.split("/")[0]`: the part before the first slash. -/
def split_host (s : Line) : Line := (splitOnChar '/' s).headD []

/-- The broadcast address of a network. -/
def broadcastAddr (n : IPv4Network) : Nat := n.network + blockSize n.prefixlen - 1

/-- `IPv4Network.hosts()` (CPython 3.9), as a list in ascending order:
for `/32` the single address, for `/31` both addresses, otherwise every
address strictly between the network and broadcast addresses. -/
def hostsList (n : IPv4Network) : List Nat :=
  if n.prefixlen = 32 then [n.network]
  else if n.prefixlen = 31 then [n.network, n.network + 1]
  else List.range' (n.network + 1) (blockSize n.prefixlen - 2)

/-- The candidate host addresses as a set. -/
def hostsFinset (n : IPv4Network) : Finset Nat := (hostsList n).toFinset

/-- `str(IPv4Address(n))`: dotted-decimal rendering. -/
def ipToChars (n : Nat) : Line :=
  Nat.toDigits 10 (n / 16777216 % 256) ++ '.' ::
  (Nat.toDigits 10 (n / 65536 % 256) ++ '.' ::
  (Nat.toDigits 10 (n / 256 % 256) ++ '.' :: Nat.toDigits 10 (n % 256)))

/-! ## The script's own functions -/

/-- `find_unused_ip(used_ips, address)`: scan `address.hosts()` in order and
return the first address not in `used_ips`; raise if all are used. -/
def find_unused_ip (used_ips : Finset Nat) (address : IPv4Network) :
    Except Err Nat :=
  match (hostsList address).find? (fun new_ip => decide (new_ip ∉ used_ips)) with
  | some new_ip => .ok new_ip
  | none => .error .PoolExhausted

/-- `get_wg_show_output` post-processing of the raw `wg show` text:
split into lines, drop empty lines, strip each remaining line. -/
def wgShowLines (raw : Line) : List Line :=
  ((splitOnChar '\n' raw).filter (· ≠ [])).map pyStrip

/-- `find_interface(wg_show_output)`: last token of the first line starting
with `"interface: "`. -/
def find_interface (wg_show_output : List Line) : Except Err Line :=
  match wg_show_output.find? (fun line => "interface: ".toList.isPrefixOf line) with
  | some line => .ok (lastToken line)
  | none => .error .InterfaceNotFound

/-- `find_server_public_key(wg_show_output)`: last token of the first line
starting with `"public key: "`. -/
def find_server_public_key (wg_show_output : List Line) : Except Err Line :=
  match wg_show_output.find? (fun line => "public key: ".toList.isPrefixOf line) with
  | some line => .ok (lastToken line)
  | none => .error .PublicKeyNotFound

/-- `find_address(interface_name)`, applied to the lines of the interface's
config file: the last token of the first line starting with `Address` is
read both as a network (non-strict) and as the interface's own address. -/
def find_address (configLines : List Line) : Except Err (IPv4Network × Nat) :=
  match configLines.find? (fun line => "Address".toList.isPrefixOf line) with
  | some line =>
    let ip := lastToken line
    match parseNetwork ip, parseIPv4 (split_host ip) with
    | some net, some a => .ok (net, a)
    | _, _ => .error .ValueError
  | none => .error .AddressDirectiveMissing

/-- `find_using_ips(wg_output)`: the last token of every line that starts
with `"allowed ips"` and does not contain the placeholder `"(none)"`. -/
def find_using_ips (wg_output : List Line) : List Line :=
  (wg_output.filter (fun line =>
      "allowed ips".toList.isPrefixOf line &&
      !(containsSub "(none)".toList line))).map lastToken

/-- `ipaddress.ip_address(ip.split("/")[0])` for one allowed-ips entry:
the prefix length (if any) is discarded and only the host address parsed. -/
def peer_entry_addr (ip : Line) : Except Err Nat :=
  match parseIPv4 (split_host ip) with
  | some a => .ok a
  | none => .error .ValueError

/-- The set comprehension in `make_new_ip`: parse every entry yielded by
`find_using_ips`. -/
def parse_used_ips (wg_output : List Line) : Except Err (List Nat) :=
  (find_using_ips wg_output).mapM peer_entry_addr

/-- The used-address set of `make_new_ip`: the parsed peer addresses plus
the interface's own address (`used_ips.add(address_as_ip)`). -/
def make_used_ips (address_as_ip : Nat) (parsed : List Nat) : Finset Nat :=
  insert address_as_ip parsed.toFinset

/-- `make_new_ip(interface_name, wg_output)`: the config file content stands
in for the path lookup (`none` models a missing file, the failed
`is_file` assert). Returns the rendered `f"{new_ip}/32"` string. -/
def make_new_ip (configFile : Option (List Line)) (wg_output : List Line) :
    Except Err Line :=
  match configFile with
  | none => .error .ConfigFileMissing
  | some configLines =>
    match find_address configLines with
    | .error e => .error e
    | .ok (address, address_as_ip) =>
      match parse_used_ips wg_output with
      | .error e => .error e
      | .ok parsed =>
        match find_unused_ip (make_used_ips address_as_ip parsed) address with
        | .error e => .error e
        | .ok new_ip => .ok (ipToChars new_ip ++ '/' :: "32".toList)

/-! ## The pipeline (`main`) -/

/-- Externally visible side effects of one run, in order of occurrence. -/
inductive Event where
  /-- `wg show` was invoked. -/
  | WgShow
  /-- `wg genkey` / `wg pubkey` were invoked. -/
  | GenKey
  /-- the interface's config file was consulted. -/
  | ReadConfig
  /-- the client artifact directory was created. -/
  | MkDir
  /-- the client config file was written. -/
  | WroteConfig
  /-- `qrencode` rendered the QR code. -/
  | QrCode
  /-- `wg set <iface> peer <pk> allowed-ips <ip>` was invoked. -/
  | WgSet
  /-- `wg-quick save <iface>` was invoked. -/
  | WgQuickSave
deriving DecidableEq

/-- The environment of one run: results of every external interaction
(`wg show` output, prompt input, key generation, the interface's config
file, and the exit codes of the mutating commands). -/
structure Env where
  /-- `wg show` exited with status 0 (else `check_output` raises). -/
  wgShowOk : Bool
  /-- the raw text `wg show` printed. -/
  wgShowRaw : Line
  /-- what the username prompt returned, before stripping. -/
  usernameRaw : Line
  /-- output of `wg genkey`. -/
  privateKey : Line
  /-- output of `wg pubkey`. -/
  publicKey : Line
  /-- content of `/etc/wireguard/<interface>.conf`; `none` if absent. -/
  configFile : Option (List Line)
  /-- `os.mkdir(username)` succeeded. -/
  mkdirOk : Bool
  /-- exit status of the `wg set ... peer ...` registration command. -/
  regExit : Nat
  /-- exit status of the `wg-quick save` persist command. -/
  saveExit : Nat

/-- `main()`: the sequential pipeline, returning the trace of external side
effects together with the overall result. -/
def main (env : Env) : List Event × Except Err Unit :=
  if ¬ env.wgShowOk then ([.WgShow], .error .StatusUnavailable)
  else
    let lines := wgShowLines env.wgShowRaw
    if lines = [] then ([.WgShow], .error .StatusUnavailable)
    else
      match find_interface lines with
      | .error e => ([.WgShow], .error e)
      | .ok _interface_name =>
        match find_server_public_key lines with
        | .error e => ([.WgShow], .error e)
        | .ok _server_public_key =>
          if pyStrip env.usernameRaw = [] then ([.WgShow], .error .EmptyUsername)
          else
            match make_new_ip env.configFile lines with
            | .error e => ([.WgShow, .GenKey, .ReadConfig], .error e)
            | .ok _ip =>
              if ¬ env.mkdirOk then
                ([.WgShow, .GenKey, .ReadConfig], .error .MkdirFailed)
              else
                if env.regExit ≠ 0 then
                  ([.WgShow, .GenKey, .ReadConfig, .MkDir, .WroteConfig,
                    .QrCode, .WgSet], .error .RegistrationFailed)
                else
                  if env.saveExit ≠ 0 then
                    ([.WgShow, .GenKey, .ReadConfig, .MkDir, .WroteConfig,
                      .QrCode, .WgSet, .WgQuickSave], .error .PersistFailed)
                  else
                    ([.WgShow, .GenKey, .ReadConfig, .MkDir, .WroteConfig,
                      .QrCode, .WgSet, .WgQuickSave], .ok ())

/-! ## Helper lemmas -/

/-- `List.find?` on a weakly sorted list returns a least element among
those satisfying the predicate. -/
theorem find?_first_sorted {p : Nat → Bool} :
    ∀ {l : List Nat}, l.Pairwise (· ≤ ·) → ∀ {a : Nat}, l.find? p = some a →
      ∀ b ∈ l, p b = true → a ≤ b := by
  intro l
  induction l with
  | nil => intro _ a h; simp [List.find?] at h
  | cons x xs ih =>
    intro hs a h b hb hpb
    rw [List.pairwise_cons] at hs
    rw [List.find?_cons] at h
    cases hpx : p x with
    | true =>
      rw [hpx] at h
      simp only [if_true] at h
      obtain rfl : x = a := by injection h
      rcases List.mem_cons.mp hb with rfl | hb2
      · exact Nat.le_refl _
      · exact hs.1 b hb2
    | false =>
      rw [hpx] at h
      simp only [if_false] at h
      rcases List.mem_cons.mp hb with rfl | hb2
      · rw [hpb] at hpx; cases hpx
      · exact ih hs.2 h b hb2 hpb

/-- The candidate host list is enumerated in ascending order. -/
theorem hostsList_sorted (n : IPv4Network) : (hostsList n).Pairwise (· ≤ ·) := by
  unfold hostsList
  split
  · simp
  · split
    · simp
    · exact (List.pairwise_lt_range' _ _).imp Nat.le_of_lt

/-- Membership in the candidate host set matches the enumerated list. -/
theorem mem_hostsFinset {a : Nat} {n : IPv4Network} :
    a ∈ hostsFinset n ↔ a ∈ hostsList n := List.mem_toFinset

/-- `List.find?` over a list whose first match is `l`. -/
theorem find?_first_in_append {α : Type _} {p : α → Bool} :
    ∀ (pre : List α) (l : α) (post : List α),
      (∀ x ∈ pre, p x = false) → p l = true →
      (pre ++ l :: post).find? p = some l := by
  intro pre l post hpre hl
  induction pre with
  | nil => simp [List.find?_cons, hl]
  | cons x xs ih =>
    have hx : p x = false := hpre x (List.mem_cons_self x xs)
    simp only [List.cons_append, List.find?_cons, hx, if_false]
    exact ih (fun y hy => hpre y (List.mem_cons_of_mem x hy))

/-- Splitting never yields an empty list of parts. -/
theorem splitOnChar_ne_nil (c : Char) : ∀ s : Line, splitOnChar c s ≠ [] := by
  intro s
  induction s with
  | nil => simp [splitOnChar]
  | cons x xs ih =>
    unfold splitOnChar
    split
    · simp
    · cases h : splitOnChar c xs with
      | nil => exact absurd h ih
      | cons hh tt => simp [consHead]

/-- Splitting a string that does not contain the separator yields the
string itself as the only part. -/
theorem splitOnChar_of_not_mem (c : Char) :
    ∀ (s : Line), c ∉ s → splitOnChar c s = [s] := by
  intro s
  induction s with
  | nil => intro _; rfl
  | cons x xs ih =>
    intro h
    have hxc : ¬ x = c := fun he => h (he ▸ List.mem_cons_self x xs)
    have hcs : c ∉ xs := fun hm => h (List.mem_cons_of_mem x hm)
    unfold splitOnChar
    rw [if_neg hxc, ih hcs, consHead]

/-- Splitting at the first separator occurrence: the part before it comes
out whole, the rest is split recursively. -/
theorem splitOnChar_append_cons (c : Char) :
    ∀ (a : Line) (p : Line), c ∉ a →
      splitOnChar c (a ++ c :: p) = a :: splitOnChar c p := by
  intro a p
  induction a with
  | nil => intro _; simp [splitOnChar]
  | cons x xs ih =>
    intro h
    have hxc : ¬ x = c := fun he => h (he ▸ List.mem_cons_self x xs)
    have hcs : c ∉ xs := fun hm => h (List.mem_cons_of_mem x hm)
    rw [List.cons_append, splitOnChar, if_neg hxc, ih hcs, consHead]

/-- The network returned by non-strict parsing is the declared address
with its host bits cleared. -/
theorem parseNetwork_mask {t : Line} {net : IPv4Network} {a : Nat}
    (h1 : parseNetwork t = some net)
    (h2 : parseIPv4 (split_host t) = some a) :
    net.network = maskNetwork a net.prefixlen := by
  unfold parseNetwork at h1
  unfold split_host at h2
  cases hs : splitOnChar '/' t with
  | nil => rw [hs] at h1; cases h1
  | cons x rest =>
    cases rest with
    | nil =>
      rw [hs] at h1 h2
      simp only [List.headD_cons] at h2
      simp only [h2, Option.map_some] at h1
      obtain rfl : (⟨a, 32⟩ : IPv4Network) = net := by
        injection h1
      simp only [maskNetwork, blockSize]
      omega
    | cons p rest2 =>
      cases rest2 with
      | nil =>
        rw [hs] at h1 h2
        simp only [List.headD_cons] at h2
        simp only [h2] at h1
        cases hp : parsePrefixLen p with
        | none => simp only [hp] at h1; cases h1
        | some pl =>
          simp only [hp] at h1
          obtain rfl : (⟨maskNetwork a pl, pl⟩ : IPv4Network) = net := by
            injection h1
          rfl
      | cons q rest3 => rw [hs] at h1; cases h1

/-- An allocated address returned by `find_unused_ip` is not used. -/
theorem find_unused_ip_ok_not_used {U : Finset Nat} {S : IPv4Network} {r : Nat}
    (h : find_unused_ip U S = .ok r) : r ∉ U := by
  unfold find_unused_ip at h
  cases hf : (hostsList S).find? (fun new_ip => decide (new_ip ∉ U)) with
  | none => rw [hf] at h; cases h
  | some x =>
    rw [hf] at h
    obtain rfl : x = r := by injection h
    have h2 := List.find?_some (p := fun new_ip => decide (new_ip ∉ U)) (a := x) hf
    exact of_decide_eq_true h2

/-! ## Claim theorems -/

/-- C1: for every subnet `S` and used-address set `U` with `U` a proper
subset of the candidate host set (so `|U| < |hosts(S)|`), `find_unused_ip`
returns an address that is a candidate host, not used, and numerically
least among the unused candidate hosts. `hostsFinset S` is the set of
candidate host addresses the allocator enumerates — the usable host range
of the subnet, excluding the network and broadcast addresses (with
Python's `/31`-and-`/32` special cases). -/
theorem find_unused_ip_least (S : IPv4Network) (U : Finset Nat)
    (hsub : U ⊆ hostsFinset S) (hcard : U.card < (hostsFinset S).card) :
    ∃ a, find_unused_ip U S = .ok a ∧ a ∈ hostsFinset S ∧ a ∉ U ∧
      ∀ b ∈ hostsFinset S, b ∉ U → a ≤ b := by
  have hpos : 0 < (hostsFinset S \ U).card := by
    rw [Finset.card_sdiff hsub]
    omega
  obtain ⟨x, hx⟩ := Finset.card_pos.mp hpos
  rw [Finset.mem_sdiff] at hx
  have hsome : ((hostsList S).find? (fun new_ip => decide (new_ip ∉ U))).isSome := by
    rw [List.find?_isSome]
    exact ⟨x, mem_hostsFinset.mp hx.1, decide_eq_true hx.2⟩
  obtain ⟨a, ha⟩ := Option.isSome_iff_exists.mp hsome
  have hmem : a ∈ hostsFinset S := mem_hostsFinset.mpr (List.mem_of_find?_eq_some ha)
  have hnotU : a ∉ U := by
    have h2 := List.find?_some (p := fun new_ip => decide (new_ip ∉ U)) (a := a) ha
    exact of_decide_eq_true h2
  refine ⟨a, ?_, hmem, hnotU, ?_⟩
  · unfold find_unused_ip
    rw [ha]
  · intro b hb hbU
    exact find?_first_sorted (hostsList_sorted S) ha b (mem_hostsFinset.mp hb)
      (decide_eq_true hbU)

/-- C1 witness: in `10.10.50.0/30` with `10.10.50.1` used, the allocator
picks `10.10.50.2`, the least unused candidate host. -/
theorem find_unused_ip_least_witness :
    ∃ a, find_unused_ip {168440321} ⟨168440320, 30⟩ = .ok a ∧
      a ∈ hostsFinset ⟨168440320, 30⟩ ∧ a ∉ ({168440321} : Finset Nat) ∧
      ∀ b ∈ hostsFinset ⟨168440320, 30⟩, b ∉ ({168440321} : Finset Nat) → a ≤ b :=
  find_unused_ip_least ⟨168440320, 30⟩ {168440321} (by decide) (by decide)

/-- C2: for every subnet `S`, when the used set equals the whole candidate
host set (every usable host address already used), `find_unused_ip` fails
with `PoolExhausted` and returns no address. -/
theorem find_unused_ip_exhausted (S : IPv4Network) :
    find_unused_ip (hostsFinset S) S = .error .PoolExhausted := by
  have hnone : (hostsList S).find? (fun new_ip => decide (new_ip ∉ hostsFinset S))
      = none := by
    rw [List.find?_eq_none]
    intro x hx
    simp only [Bool.not_eq_true, decide_eq_false_iff_not, not_not]
    exact mem_hostsFinset.mpr hx
  unfold find_unused_ip
  rw [hnone]

/-- C3: end-to-end scenario A — subnet `10.10.50.0/24` declared as
`Address = 10.10.50.1/24`, existing peers `10.10.50.2/32` and
`10.10.50.3/32`: `make_new_ip` returns the string `"10.10.50.4/32"`. -/
theorem make_new_ip_scenario_a :
    make_new_ip (some ["Address = 10.10.50.1/24".toList])
      ["allowed ips: 10.10.50.2/32".toList, "allowed ips: 10.10.50.3/32".toList]
      = .ok "10.10.50.4/32".toList := by
  decide

/-- C4: for every status output and interface configuration, the
used-address set passed to the allocator is exactly the union of the
peers' parsed allowed addresses and the interface's own address; the
interface's own address is always a member, and consequently the address
`make_new_ip` returns is never the interface's own address. -/
theorem make_new_ip_used_set (configLines wg : List Line) (net : IPv4Network)
    (a : Nat) (parsed : List Nat) (s : Line)
    (hfa : find_address configLines = .ok (net, a))
    (hpu : parse_used_ips wg = .ok parsed)
    (hmk : make_new_ip (some configLines) wg = .ok s) :
    make_used_ips a parsed = parsed.toFinset ∪ {a} ∧
    a ∈ make_used_ips a parsed ∧
    ∃ r, s = ipToChars r ++ '/' :: "32".toList ∧
      r ∉ make_used_ips a parsed ∧ r ≠ a := by
  refine ⟨?_, Finset.mem_insert_self a _, ?_⟩
  · rw [make_used_ips, Finset.insert_eq, Finset.union_comm]
  · simp only [make_new_ip, hfa, hpu] at hmk
    cases hfu : find_unused_ip (make_used_ips a parsed) net with
    | error e => simp only [hfu] at hmk; cases hmk
    | ok r =>
      simp only [hfu] at hmk
      have hr : r ∉ make_used_ips a parsed := find_unused_ip_ok_not_used hfu
      refine ⟨r, ?_, hr, ?_⟩
      · exact (Except.ok.inj hmk).symm
      · intro hra
        exact hr (hra ▸ Finset.mem_insert_self a parsed.toFinset)

/-- C4 witness: config `Address = 10.10.50.1/24`, one peer
`10.10.50.2/32`; the used set is the peer address plus the interface
address `10.10.50.1`, and the returned address `10.10.50.3` differs from
the interface's own. -/
theorem make_new_ip_used_set_witness :
    make_used_ips 168440321 [168440322] = ([168440322] : List Nat).toFinset ∪ {168440321} ∧
    168440321 ∈ make_used_ips 168440321 [168440322] ∧
    ∃ r, "10.10.50.3/32".toList = ipToChars r ++ '/' :: "32".toList ∧
      r ∉ make_used_ips 168440321 [168440322] ∧ r ≠ 168440321 :=
  make_new_ip_used_set ["Address = 10.10.50.1/24".toList]
    ["allowed ips: 10.10.50.2/32".toList] ⟨168440320, 24⟩ 168440321
    [168440322] "10.10.50.3/32".toList (by decide) (by decide) (by decide)

/-- C5: an `allowed ips` line whose value is the placeholder `(none)`
contributes no entry to `find_using_ips` (and hence to the used-address
set), while an `allowed ips` line without the placeholder contributes
exactly its last token. -/
theorem find_using_ips_placeholder (pre post : List Line) (l : Line)
    (hp : "allowed ips".toList.isPrefixOf l = true) :
    (containsSub "(none)".toList l = true →
      find_using_ips (pre ++ l :: post) = find_using_ips (pre ++ post)) ∧
    (containsSub "(none)".toList l = false →
      find_using_ips (pre ++ l :: post) =
        find_using_ips pre ++ lastToken l :: find_using_ips post) := by
  constructor
  · intro hn
    have hq : ¬ ((fun line => "allowed ips".toList.isPrefixOf line &&
        !containsSub "(none)".toList line) l = true) := by
      simp only [hp, hn, Bool.true_and, Bool.not_true]
      exact Bool.false_ne_true
    unfold find_using_ips
    rw [List.filter_append, List.filter_append,
      List.filter_cons_of_neg (p := fun line => "allowed ips".toList.isPrefixOf line &&
        !containsSub "(none)".toList line) (a := l) hq]
  · intro hn
    have hq : (fun line => "allowed ips".toList.isPrefixOf line &&
        !containsSub "(none)".toList line) l = true := by
      simp only [hp, hn, Bool.true_and, Bool.not_false]
    unfold find_using_ips
    rw [List.filter_append,
      List.filter_cons_of_pos (p := fun line => "allowed ips".toList.isPrefixOf line &&
        !containsSub "(none)".toList line) (a := l) hq,
      List.map_append, List.map_cons]

/-- C5 witness: the single line `allowed ips: (none)` yields no entries. -/
theorem find_using_ips_placeholder_witness :
    find_using_ips ["allowed ips: (none)".toList] = find_using_ips [] :=
  (find_using_ips_placeholder [] [] "allowed ips: (none)".toList (by decide)).1
    (by decide)

/-- C6: `find_address` takes the first line beginning with `Address`,
reads its trailing token as a CIDR string, and returns the containing
network (non-strict: the host bits of the declared address are cleared,
and the declared address lies inside the returned network) together with
the interface's own address; when no line begins with `Address` it fails
with `AddressDirectiveMissing`. -/
theorem find_address_spec (configLines : List Line) :
    ((∀ l' ∈ configLines, "Address".toList.isPrefixOf l' = false) →
      find_address configLines = .error .AddressDirectiveMissing) ∧
    (∀ (pre : List Line) (l : Line) (post : List Line) (net : IPv4Network) (a : Nat),
      configLines = pre ++ l :: post →
      (∀ l' ∈ pre, "Address".toList.isPrefixOf l' = false) →
      "Address".toList.isPrefixOf l = true →
      parseNetwork (lastToken l) = some net →
      parseIPv4 (split_host (lastToken l)) = some a →
      find_address configLines = .ok (net, a) ∧
      net.network = maskNetwork a net.prefixlen ∧
      net.network ≤ a ∧ a ≤ broadcastAddr net) := by
  constructor
  · intro hno
    have hfn : configLines.find? (fun line => "Address".toList.isPrefixOf line)
        = none :=
      List.find?_eq_none.mpr (fun x hx h => by
        rw [hno x hx] at h
        exact Bool.noConfusion h)
    unfold find_address
    rw [hfn]
  · intro pre l post net a hcl hpre hl hnet haddr
    subst hcl
    have hfs := find?_first_in_append pre l post hpre hl
    have hmask := parseNetwork_mask hnet haddr
    have hbs : 0 < blockSize net.prefixlen := Nat.pos_pow_of_pos _ (by omega)
    have hmod : a % blockSize net.prefixlen < blockSize net.prefixlen :=
      Nat.mod_lt _ hbs
    have hmle : a % blockSize net.prefixlen ≤ a := Nat.mod_le _ _
    refine ⟨?_, hmask, ?_, ?_⟩
    · simp only [find_address, hfs, hnet, haddr]
    · rw [hmask]; exact Nat.sub_le _ _
    · rw [broadcastAddr, hmask]
      unfold maskNetwork
      omega

/-- C6 witness: a comment line followed by `Address = 10.10.50.1/24`
resolves to network `10.10.50.0/24` and own address `10.10.50.1`, with
the host bits cleared and the address inside the network. -/
theorem find_address_spec_witness :
    find_address (["# cfg".toList] ++ "Address = 10.10.50.1/24".toList :: [])
        = .ok (⟨168440320, 24⟩, 168440321) ∧
    (168440320 : Nat) = maskNetwork 168440321 24 ∧
    (168440320 : Nat) ≤ 168440321 ∧
    (168440321 : Nat) ≤ broadcastAddr ⟨168440320, 24⟩ :=
  (find_address_spec (["# cfg".toList] ++ "Address = 10.10.50.1/24".toList :: [])).2
    ["# cfg".toList] "Address = 10.10.50.1/24".toList [] ⟨168440320, 24⟩ 168440321
    (by decide) (by decide) (by decide) (by decide) (by decide)

/-- C7: in every run whose peer-registration command exits non-zero, the
persist step is never invoked, and if the registration command was
invoked at all the run fails with `RegistrationFailed`. -/
theorem main_registration_gates_persist (env : Env) (h : env.regExit ≠ 0) :
    Event.WgQuickSave ∉ (main env).1 ∧
    (Event.WgSet ∈ (main env).1 → (main env).2 = .error .RegistrationFailed) := by
  cases hw : env.wgShowOk with
  | false => simp [main, hw]
  | true =>
    by_cases hl : wgShowLines env.wgShowRaw = []
    · simp [main, hw, hl]
    · cases hfi : find_interface (wgShowLines env.wgShowRaw) with
      | error e => simp [main, hw, hl, hfi]
      | ok nm =>
        cases hpk : find_server_public_key (wgShowLines env.wgShowRaw) with
        | error e => simp [main, hw, hl, hfi, hpk]
        | ok pk =>
          by_cases hu : pyStrip env.usernameRaw = []
          · simp [main, hw, hl, hfi, hpk, hu]
          · cases hmk : make_new_ip env.configFile (wgShowLines env.wgShowRaw) with
            | error e => simp [main, hw, hl, hfi, hpk, hu, hmk]
            | ok ip =>
              cases hm : env.mkdirOk with
              | false => simp [main, hw, hl, hfi, hpk, hu, hmk, hm]
              | true => simp [main, hw, hl, hfi, hpk, hu, hmk, hm, h]

/-- Environment for the C7 witness: a healthy run in which `wg set`
exits with status 1. -/
def envRegFail : Env where
  wgShowOk := true
  wgShowRaw :=
    "interface: wg0\npublic key: abc123\nallowed ips: 10.10.50.2/32\n".toList
  usernameRaw := "alice".toList
  privateKey := "priv".toList
  publicKey := "pub".toList
  configFile := some ["Address = 10.10.50.1/24".toList]
  mkdirOk := true
  regExit := 1
  saveExit := 0

/-- C7 witness: with `envRegFail`, the registration command runs, the run
fails with `RegistrationFailed`, and persist is never invoked. -/
theorem main_registration_gates_persist_witness :
    Event.WgQuickSave ∉ (main envRegFail).1 ∧
    (Event.WgSet ∈ (main envRegFail).1 →
      (main envRegFail).2 = .error .RegistrationFailed) :=
  main_registration_gates_persist envRegFail (by decide)

/-- C8: for every run whose status text (after line splitting and
stripping) is non-empty and contains no line starting with
`"interface: "`, the run fails with `InterfaceNotFound` and nothing
beyond the status query executes: the trace is `[WgShow]`, so neither
subnet resolution nor allocation nor registration nor persistence runs. -/
theorem main_no_interface (env : Env) (h0 : env.wgShowOk = true)
    (h1 : wgShowLines env.wgShowRaw ≠ [])
    (h2 : ∀ l ∈ wgShowLines env.wgShowRaw,
      "interface: ".toList.isPrefixOf l = false) :
    main env = ([Event.WgShow], .error Err.InterfaceNotFound) := by
  have hfi : find_interface (wgShowLines env.wgShowRaw)
      = .error .InterfaceNotFound := by
    have hfn : (wgShowLines env.wgShowRaw).find?
        (fun line => "interface: ".toList.isPrefixOf line) = none :=
      List.find?_eq_none.mpr (fun x hx h => by
        rw [h2 x hx] at h
        exact Bool.noConfusion h)
    unfold find_interface
    rw [hfn]
  unfold main
  rw [if_neg (by rw [h0]; exact fun hc => hc rfl)]
  simp only [if_neg h1, hfi]

/-- Environment for the C8 witness: `wg show` prints only a public-key
line. -/
def envNoIface : Env where
  wgShowOk := true
  wgShowRaw := "public key: abc123\n".toList
  usernameRaw := "alice".toList
  privateKey := "priv".toList
  publicKey := "pub".toList
  configFile := some ["Address = 10.10.50.1/24".toList]
  mkdirOk := true
  regExit := 0
  saveExit := 0

/-- C8 witness: with `envNoIface` the run stops at `InterfaceNotFound`
right after the status query. -/
theorem main_no_interface_witness :
    main envNoIface = ([Event.WgShow], .error Err.InterfaceNotFound) :=
  main_no_interface envNoIface (by decide) (by decide) (by decide)

/-- C9: every run that fails with `PoolExhausted` has written no client
artifact (no directory, no config file, no QR code) and mutated no live
state (no `wg set`, no `wg-quick save`). -/
theorem main_pool_exhausted_no_side_effects (env : Env) (tr : List Event)
    (h : main env = (tr, .error .PoolExhausted)) :
    Event.MkDir ∉ tr ∧ Event.WroteConfig ∉ tr ∧ Event.QrCode ∉ tr ∧
    Event.WgSet ∉ tr ∧ Event.WgQuickSave ∉ tr := by
  cases hw : env.wgShowOk with
  | false => simp [main, hw] at h
  | true =>
    by_cases hl : wgShowLines env.wgShowRaw = []
    · simp [main, hw, hl] at h
    · cases hfi : find_interface (wgShowLines env.wgShowRaw) with
      | error e =>
        simp [main, hw, hl, hfi] at h
        obtain ⟨h1, h2⟩ := h
        subst h1
        decide
      | ok nm =>
        cases hpk : find_server_public_key (wgShowLines env.wgShowRaw) with
        | error e =>
          simp [main, hw, hl, hfi, hpk] at h
          obtain ⟨h1, h2⟩ := h
          subst h1
          decide
        | ok pk =>
          by_cases hu : pyStrip env.usernameRaw = []
          · simp [main, hw, hl, hfi, hpk, hu] at h
          · cases hmk : make_new_ip env.configFile (wgShowLines env.wgShowRaw) with
            | error e =>
              simp [main, hw, hl, hfi, hpk, hu, hmk] at h
              obtain ⟨h1, h2⟩ := h
              subst h1
              decide
            | ok ip =>
              cases hm : env.mkdirOk with
              | false => simp [main, hw, hl, hfi, hpk, hu, hmk, hm] at h
              | true =>
                by_cases hr : env.regExit = 0
                · by_cases hs : env.saveExit = 0
                  · simp [main, hw, hl, hfi, hpk, hu, hmk, hm, hr, hs] at h
                  · simp [main, hw, hl, hfi, hpk, hu, hmk, hm, hr, hs] at h
                · simp [main, hw, hl, hfi, hpk, hu, hmk, hm, hr] at h

/-- Environment for the C9 witness: subnet `10.10.50.0/30` with both
usable hosts (`.1` as the interface's own address, `.2` as a peer)
already used. -/
def envExhausted : Env where
  wgShowOk := true
  wgShowRaw :=
    "interface: wg0\npublic key: abc123\nallowed ips: 10.10.50.2/32\n".toList
  usernameRaw := "alice".toList
  privateKey := "priv".toList
  publicKey := "pub".toList
  configFile := some ["Address = 10.10.50.1/30".toList]
  mkdirOk := true
  regExit := 0
  saveExit := 0

/-- C9 witness: the exhausted `/30` run stops with trace
`[WgShow, GenKey, ReadConfig]`, so no artifact or mutation event
occurred. -/
theorem main_pool_exhausted_no_side_effects_witness :
    Event.MkDir ∉ [Event.WgShow, Event.GenKey, Event.ReadConfig] ∧
    Event.WroteConfig ∉ [Event.WgShow, Event.GenKey, Event.ReadConfig] ∧
    Event.QrCode ∉ [Event.WgShow, Event.GenKey, Event.ReadConfig] ∧
    Event.WgSet ∉ [Event.WgShow, Event.GenKey, Event.ReadConfig] ∧
    Event.WgQuickSave ∉ [Event.WgShow, Event.GenKey, Event.ReadConfig] :=
  main_pool_exhausted_no_side_effects envExhausted
    [Event.WgShow, Event.GenKey, Event.ReadConfig] (by decide)

/-- C10: the prefix length of an allowed-ips entry is discarded before the
address is added to the used set — an entry `A/p` contributes exactly the
host address `A` whatever `p` is — and concretely an entry
`10.10.50.2/24` reserves only `10.10.50.2`: the allocator still returns
`10.10.50.3`, an address inside that entry's `/24` range. -/
theorem peer_entry_addr_drops_mask :
    (∀ (a p : Line), '/' ∉ a →
      peer_entry_addr (a ++ '/' :: p) = peer_entry_addr a) ∧
    make_new_ip (some ["Address = 10.10.50.1/24".toList])
      ["allowed ips: 10.10.50.2/24".toList] = .ok "10.10.50.3/32".toList := by
  constructor
  · intro a p ha
    unfold peer_entry_addr split_host
    rw [splitOnChar_append_cons '/' a p ha, splitOnChar_of_not_mem '/' a ha]
    simp only [List.headD_cons]
  · decide

/-- C10 witness: the entry `10.10.50.2/24` contributes the same used
address as the bare host string `10.10.50.2`. -/
theorem peer_entry_addr_drops_mask_witness :
    peer_entry_addr ("10.10.50.2".toList ++ '/' :: "24".toList)
      = peer_entry_addr "10.10.50.2".toList :=
  peer_entry_addr_drops_mask.1 "10.10.50.2".toList "24".toList (by decide)

end WgAuto
